import Mathlib

/-!
Verification of the media-converter program in `src/pmc.py` against its
specification. Python strings are modelled as lists of characters
(`List Char`), so every operation is structurally recursive and can be
evaluated by the kernel. Interactive input is modelled by passing the
stream of user answers explicitly; the external transcoding engine, the
filesystem and the keyboard-interrupt signal are modelled as explicit
environment values, matching the spec's description of them as opaque
external collaborators.
-/

namespace PMC

/-- A Python string, modelled as its list of characters. -/
abbrev Str := List Char

/-- Characters of a Lean string literal, for writing `Str` constants. -/
def S (s : String) : Str := s.data

/-! ### Models of the Python `str` primitives used by `pmc.py` -/

/-- Lower-casing of a single ASCII character (model of `str.lower` per char). -/
def lower_char (c : Char) : Char :=
  if 'A' ≤ c ∧ c ≤ 'Z' then Char.ofNat (c.toNat + 32) else c

/-- Model of Python `str.lower()` (ASCII case folding). -/
def lower (s : Str) : Str := s.map lower_char

/-- Model of Python whitespace for `str.strip()`. -/
def is_space (c : Char) : Bool :=
  c == ' ' || c == '\t' || c == '\n' || c == '\r' || c == '\x0b' || c == '\x0c'

/-- Model of Python `str.strip()`: drop whitespace from both ends. -/
def strip (s : Str) : Str :=
  ((s.dropWhile is_space).reverse.dropWhile is_space).reverse

/-- Model of Python `str.split(sep)` for a one-character separator. -/
def split_on (sep : Char) : Str → List Str
  | [] => [[]]
  | c :: rest =>
    if c = sep then [] :: split_on sep rest
    else
      match split_on sep rest with
      | [] => [[c]]
      | t :: ts => (c :: t) :: ts

/-- Model of Python `sep.join(parts)` for a one-character separator. -/
def join_on (sep : Char) : List Str → Str
  | [] => []
  | [x] => x
  | x :: xs => x ++ sep :: join_on sep xs

/-- The numeric value of a decimal digit character, if it is one. -/
def digit_val (c : Char) : Option Nat :=
  if '0' ≤ c ∧ c ≤ '9' then some (c.toNat - '0'.toNat) else none

/-- Accumulate the decimal value of a digit string. -/
def parse_digits (acc : Nat) : Str → Option Nat
  | [] => some acc
  | c :: cs =>
    match digit_val c with
    | some d => parse_digits (acc * 10 + d) cs
    | none => none

/-- A non-empty all-digit string parsed as a natural number. -/
def parse_nat (s : Str) : Option Nat :=
  match s with
  | [] => none
  | _ => parse_digits 0 s

/-- Model of Python `int(s)` in its common form: optional surrounding
whitespace, an optional sign, then decimal digits; `none` models the
`ValueError` raised on anything else. -/
def parse_int (s : Str) : Option Int :=
  match strip s with
  | '-' :: rest => (parse_nat rest).map (fun n => -(n : Int))
  | '+' :: rest => (parse_nat rest).map (fun n => (n : Int))
  | t => (parse_nat t).map (fun n => (n : Int))

/-- Model of Python `sorted` on strings: lexicographic (code-point) order.
Since the order on `Str` is antisymmetric, the sorted permutation is unique,
so the choice of sorting algorithm is irrelevant. -/
def sorted_strings (l : List Str) : List Str :=
  List.insertionSort (· ≤ ·) l

/-- Model of `os.path.basename`: the part after the last slash. -/
def basename (p : Str) : Str := (split_on '/' p).getLastD p

/-- Model of the root part of `os.path.splitext` in its common case:
everything before the last dot, or the whole name when it has no dot. -/
def splitext_root (name : Str) : Str :=
  if (split_on '.' name).length ≤ 1 then name
  else join_on '.' (split_on '.' name).dropLast

/-- Model of `os.path.join` in the form used by `pmc.py`:
`join('', b) = b` and `join(a, b) = a + '/' + b` otherwise. -/
def path_join (a b : Str) : Str :=
  if a = [] then b else a ++ '/' :: b

/-! ### Directory Scanner (`get_media_files_in_directory`, src/pmc.py:52-82)

A directory is modelled as the list of names of the files that are its
direct children, and `glob.glob(os.path.join(d, "*.ext"))` as the filter
keeping the names ending in `".ext"`, in discovery order and without
recursion into subdirectories, per the glob contract. -/

/-- The fixed catalog of media-extension glob patterns (src/pmc.py:63-72). -/
def media_extensions : List Str :=
  [S "*.mp4", S "*.avi", S "*.mkv", S "*.mov", S "*.wmv", S "*.flv",
   S "*.webm", S "*.m4v", S "*.ts", S "*.3gp",
   S "*.mp3", S "*.wav", S "*.flac", S "*.aac", S "*.ogg", S "*.wma",
   S "*.m4a", S "*.opus",
   S "*.jpg", S "*.jpeg", S "*.png", S "*.gif", S "*.bmp", S "*.tiff",
   S "*.webp",
   S "*.vob", S "*.mpg", S "*.mpeg", S "*.mxf", S "*.divx", S "*.m2ts"]

/-- Model of `glob.glob` for a `*.ext` pattern over the direct entries of a
directory: the entries whose name ends with the pattern minus its `*`. -/
def glob_match (directory : List Str) (pattern : Str) : List Str :=
  directory.filter (fun f => (pattern.drop 1).isSuffixOf f)

/-- The scanning loop of `get_media_files_in_directory` (src/pmc.py:76-80):
for each pattern with at least one match, record the pattern minus its `*`
(Python `pattern[1:]`) as the key, paired with the matching files. -/
def scan_patterns (directory : List Str) : List Str → List (Str × List Str)
  | [] => []
  | pattern :: rest =>
    let files := glob_match directory pattern
    if files.isEmpty then scan_patterns directory rest
    else (pattern.drop 1, files) :: scan_patterns directory rest

/-- `get_media_files_in_directory` (src/pmc.py:52-82): group the media files
of a directory by extension, as an association list in catalog order. -/
def get_media_files_in_directory (directory : List Str) : List (Str × List Str) :=
  scan_patterns directory media_extensions

/-! ### Input-format menu (`get_input_format_menu`, src/pmc.py:84-128)

The prompt loop is modelled over the explicit list of the user's answers;
`noMoreInput` is the model artifact for an exhausted answer stream (the
Python loop would keep blocking on `input`). `sys.exit` is modelled by the
`exitProcess` outcome, which never hands a value back to the caller. -/

inductive InputFormatResult where
  | exitProcess (code : Nat) (message : Str)
  | cancelled
  | selected (ext : Str)
  | noMoreInput
deriving DecidableEq

/-- The exit keywords of the input-format prompt (src/pmc.py:118). -/
def exit_keywords : List Str := [S "q", S "exit", S "quit"]

/-- The prompt loop of `get_input_format_menu` (src/pmc.py:115-128). -/
def input_format_choice (sorted_extensions : List Str) : List Str → InputFormatResult
  | [] => .noMoreInput
  | choice :: rest =>
    if lower choice ∈ exit_keywords then .cancelled
    else
      match parse_int choice with
      | none => input_format_choice sorted_extensions rest
      | some n =>
        if n = 0 then .cancelled
        else if 1 ≤ n ∧ n ≤ (sorted_extensions.length : Int) then
          .selected (sorted_extensions.getD (n - 1).toNat [])
        else input_format_choice sorted_extensions rest

/-- The message printed when the scan found nothing (src/pmc.py:100). -/
def no_media_message : Str := S "No media files found in the current directory."

/-- `get_input_format_menu` (src/pmc.py:84-128): on an empty mapping, print
the no-media message and exit the process with code 1 (src/pmc.py:99-102);
otherwise present the extensions sorted alphabetically and run the prompt
loop. -/
def get_input_format_menu (files_by_extension : List (Str × List Str))
    (inputs : List Str) : InputFormatResult :=
  if files_by_extension.isEmpty then .exitProcess 1 no_media_message
  else input_format_choice (sorted_strings (files_by_extension.map Prod.fst)) inputs

/-! ### File Selector (`select_files_menu`, src/pmc.py:186-250) -/

/-- The cancel keywords of the file-selection prompt (src/pmc.py:218). -/
def select_cancel_keywords : List Str :=
  [S "cancel", S "back", S "q", S "quit", S "exit"]

/-- `[int(x.strip()) for x in choice.split(',')]` (src/pmc.py:223): parse
every comma-separated token as an integer, `none` modelling the
`ValueError` raised when any token fails. -/
def parse_index_list (choice : Str) : Option (List Int) :=
  (split_on ',' choice).mapM (fun x => parse_int (strip x))

/-- The loop over a parsed comma-separated index list (src/pmc.py:226-235):
a 0 anywhere cancels the whole selection; in-range indices are collected;
out-of-range indices are reported and skipped. An empty collection at the
end falls through to the re-prompt (`none`). -/
def collect_selected (sorted_files : List Str) : List Int → List Str → Option (List Str)
  | [], acc => if acc.isEmpty then none else some acc.reverse
  | idx :: rest, acc =>
    if idx = 0 then some []
    else if 1 ≤ idx ∧ idx ≤ (sorted_files.length : Int) then
      collect_selected sorted_files rest (sorted_files.getD (idx - 1).toNat [] :: acc)
    else collect_selected sorted_files rest acc

/-- One pass of the selection prompt body (src/pmc.py:216-250): `some r`
models a `return r`, `none` models falling through to re-prompt (invalid
input or `ValueError`). -/
def select_files_step (sorted_files : List Str) (choice : Str) : Option (List Str) :=
  if lower choice ∈ select_cancel_keywords then some []
  else if choice.contains ',' then
    match parse_index_list choice with
    | none => none
    | some indices => collect_selected sorted_files indices []
  else
    match parse_int choice with
    | none => none
    | some n =>
      if n = -1 then some sorted_files
      else if n = 0 then some []
      else if 1 ≤ n ∧ n ≤ (sorted_files.length : Int) then
        some [sorted_files.getD (n - 1).toNat []]
      else none

/-- The re-prompt loop of `select_files_menu` over the user's answers;
`none` is the model artifact for an exhausted answer stream. -/
def select_files_loop (sorted_files : List Str) : List Str → Option (List Str)
  | [] => none
  | choice :: rest =>
    match select_files_step sorted_files choice with
    | some result => some result
    | none => select_files_loop sorted_files rest

/-- `select_files_menu` (src/pmc.py:186-250): sort the files alphabetically
and run the selection prompt loop. -/
def select_files_menu (input_format : Str) (files : List Str)
    (inputs : List Str) : Option (List Str) :=
  select_files_loop (sorted_strings files) inputs

/-! ### Conversion Invoker (`convert_file`, src/pmc.py:24-50)

The external engine and the filesystem are opaque collaborators; one call
is modelled by an environment saying whether `os.makedirs` raised and what
the engine reported. `convert_file` returns its boolean result paired with
the lines it prints; being a total function, it can propagate no
exception. -/

inductive EngineOutcome where
  | ok
  | engineError (diagnostic : Str)
  | unexpectedFailure (message : Str)
deriving DecidableEq

structure ConvertEnv where
  mkdirError : Option Str
  engine : EngineOutcome
deriving DecidableEq

/-- Whether one conversion attempt succeeds in environment `env`. -/
def ConvertEnv.succeeds : ConvertEnv → Bool
  | ⟨none, .ok⟩ => true
  | _ => false

/-- `convert_file` (src/pmc.py:24-50): directory-creation failures and
unexpected failures print the per-file message of src/pmc.py:49 and yield
`false`; engine-reported errors print the message of src/pmc.py:46 and
yield `false`; success prints src/pmc.py:43 and yields `true`. -/
def convert_file (input_path output_path : Str) (env : ConvertEnv) : Bool × List Str :=
  match env.mkdirError with
  | some message =>
    (false, [S "✗ Unexpected error converting " ++ input_path ++ S ": " ++ message])
  | none =>
    match env.engine with
    | .ok => (true, [S "✓ Conversion successful: " ++ output_path])
    | .engineError diagnostic =>
      (false, [S "✗ Error converting " ++ input_path ++ S ": " ++ diagnostic])
    | .unexpectedFailure message =>
      (false, [S "✗ Unexpected error converting " ++ input_path ++ S ": " ++ message])

/-! ### Batch Converter (`convert_files`, src/pmc.py:252-305)

Per the spec's concurrency model, the keyboard interrupt is observed at
file boundaries only: the environment assigns each 0-based file position
either an interrupt or a `ConvertEnv` for the `convert_file` call. -/

inductive FileEvent where
  | interrupt
  | run (env : ConvertEnv)
deriving DecidableEq

/-- The external environment of one batch: the two prompt answers, whether
the named output directory exists, whether creating it fails, and the
per-file events. -/
structure BatchEnv where
  output_dir_input : Str
  create_answer : Str
  dir_exists : Bool
  mkdir_fails : Bool
  events : Nat → FileEvent

/-- The cancel keywords of the output-directory prompt (src/pmc.py:269). -/
def batch_cancel_keywords : List Str := [S "cancel", S "exit", S "quit"]

/-- The conversion loop of `convert_files` (src/pmc.py:290-304): for each
file, first observe a pending interrupt (stopping with the counters as they
stand), else derive the output path and tally the `convert_file` result. -/
def convert_loop (events : Nat → FileEvent) (output_dir output_format : Str) :
    List Str → Nat → Nat → Nat → Nat × Nat
  | [], _, success_count, failed_count => (success_count, failed_count)
  | input_file :: rest, i, success_count, failed_count =>
    match events i with
    | .interrupt => (success_count, failed_count)
    | .run env =>
      let name_without_ext := splitext_root (basename input_file)
      let output_file := path_join output_dir (name_without_ext ++ '.' :: output_format)
      if (convert_file input_file output_file env).1 then
        convert_loop events output_dir output_format rest (i + 1) (success_count + 1) failed_count
      else
        convert_loop events output_dir output_format rest (i + 1) success_count (failed_count + 1)

/-- `convert_files` (src/pmc.py:252-305): an empty file list returns
`(0, 0)` at once; a cancel keyword at the output-directory prompt, a
declined creation of a missing directory, or a failing creation all return
`(0, 0)`; otherwise the conversion loop runs over the files. -/
def convert_files (input_files : List Str) (input_format output_format : Str)
    (benv : BatchEnv) : Nat × Nat :=
  if input_files.isEmpty then (0, 0)
  else
    let output_dir := strip benv.output_dir_input
    if lower output_dir ∈ batch_cancel_keywords then (0, 0)
    else if output_dir ≠ [] ∧ benv.dir_exists = false then
      if lower benv.create_answer = S "y" then
        if benv.mkdir_fails then (0, 0)
        else convert_loop benv.events output_dir output_format input_files 0 0 0
      else (0, 0)
    else convert_loop benv.events output_dir output_format input_files 0 0 0

/-- The tally `convert_file` accumulates over the files at 0-based
positions `start, start + 1, …, start + k - 1`, none of them interrupted. -/
def tally_from (events : Nat → FileEvent) : Nat → Nat → Nat × Nat
  | _, 0 => (0, 0)
  | start, k + 1 =>
    let rest := tally_from events (start + 1) k
    match events start with
    | .interrupt => rest
    | .run env => if env.succeeds then (rest.1 + 1, rest.2) else (rest.1, rest.2 + 1)

/-- The tally accumulated over the first `n` files of a batch. -/
def tally_before (events : Nat → FileEvent) (n : Nat) : Nat × Nat :=
  tally_from events 0 n

/-! ### Theorems -/

/-- Soundness of the scanning loop over any pattern list: every entry's key
comes from a pattern with its `*` removed, its file list is non-empty, and
every listed file is a direct entry of the directory carrying the key as a
suffix. -/
theorem scan_patterns_sound (directory : List Str) :
    ∀ (pats : List Str) (ext : Str) (fs : List Str),
      (ext, fs) ∈ scan_patterns directory pats →
      (∃ p ∈ pats, ext = p.drop 1) ∧ fs ≠ [] ∧
        ∀ f ∈ fs, f ∈ directory ∧ ext.isSuffixOf f = true := by
  intro pats
  induction pats with
  | nil => intro ext fs h; simp [scan_patterns] at h
  | cons p ps ih =>
    intro ext fs h
    unfold scan_patterns at h
    by_cases hemp : (glob_match directory p).isEmpty
    · rw [if_pos hemp] at h
      obtain ⟨⟨q, hq, he⟩, hne, hmem⟩ := ih ext fs h
      exact ⟨⟨q, List.mem_cons_of_mem _ hq, he⟩, hne, hmem⟩
    · rw [if_neg hemp] at h
      rcases List.mem_cons.mp h with heq | htail
      · rw [Prod.mk.injEq] at heq
        obtain ⟨rfl, rfl⟩ := heq
        refine ⟨⟨p, List.mem_cons_self p ps, rfl⟩, ?_, ?_⟩
        · intro hfs
          rw [hfs] at hemp
          exact hemp rfl
        · intro f hf
          unfold glob_match at hf
          exact ⟨(List.mem_filter.mp hf).1, (List.mem_filter.mp hf).2⟩
      · obtain ⟨⟨q, hq, he⟩, hne, hmem⟩ := ih ext fs htail
        exact ⟨⟨q, List.mem_cons_of_mem _ hq, he⟩, hne, hmem⟩

/-- C1: the claim says every key of the Directory Scanner's mapping is a
lower-case extension with no leading dot. The code computes the key as
`pattern[1:]`, which removes only the `*` of `"*.mp4"` and keeps the dot:
on a directory holding `video.mp4` the sole key is `".mp4"`, whose first
character is a dot. This contradicts the program's own docstrings, which
promise extensions "without dot". -/
theorem scanner_key_keeps_leading_dot :
    get_media_files_in_directory [S "video.mp4"] = [(S ".mp4", [S "video.mp4"])] ∧
    (S ".mp4").head? = some '.' := by
  constructor
  · decide
  · decide

/-- C6: for every directory, every entry of the Directory Scanner's result
has a key drawn from the fixed catalog (a catalog pattern with its `*`
removed), a non-empty file list, and only files that are direct entries of
the directory and carry that extension as a suffix. -/
theorem scanner_result_sound (directory : List Str) (ext : Str) (fs : List Str)
    (h : (ext, fs) ∈ get_media_files_in_directory directory) :
    (∃ p ∈ media_extensions, ext = p.drop 1) ∧ fs ≠ [] ∧
      ∀ f ∈ fs, f ∈ directory ∧ ext.isSuffixOf f = true :=
  scan_patterns_sound directory media_extensions ext fs h

theorem scanner_result_sound_witness :
    (S ".mp4", [S "a.mp4"]) ∈ get_media_files_in_directory [S "a.mp4"] ∧
    ((∃ p ∈ media_extensions, S ".mp4" = p.drop 1) ∧ ([S "a.mp4"] : List Str) ≠ [] ∧
      ∀ f ∈ [S "a.mp4"], f ∈ [S "a.mp4"] ∧ (S ".mp4").isSuffixOf f = true) :=
  ⟨by decide, scanner_result_sound [S "a.mp4"] (S ".mp4") [S "a.mp4"] (by decide)⟩

/-- C5: on an empty mapping the input-format step exits the process with
code 1 and the no-media message (which indeed begins with "No media files
found"), for every possible stream of user answers — it never hands a
selection back to the caller. -/
theorem empty_scan_exits_with_code_one (inputs : List Str) :
    get_input_format_menu [] inputs = .exitProcess 1 no_media_message ∧
    (S "No media files found").isPrefixOf no_media_message = true :=
  ⟨rfl, by decide⟩

/-- C10: called with an empty file list, the Batch Converter returns
`(0, 0)` immediately, whatever the prompt answers, filesystem state and
engine behaviour are — so no prompt is read and no engine call happens. -/
theorem empty_batch_returns_zero_tally (input_format output_format : Str)
    (benv : BatchEnv) :
    convert_files [] input_format output_format benv = (0, 0) := rfl

/-- A parsed comma-separated index list containing a 0 makes the collection
loop return the empty selection, whatever was collected before. -/
theorem collect_selected_of_zero (sorted_files : List Str) :
    ∀ (indices : List Int) (acc : List Str), (0 : Int) ∈ indices →
      collect_selected sorted_files indices acc = some [] := by
  intro indices
  induction indices with
  | nil => intro acc h; simp at h
  | cons idx rest ih =>
    intro acc h
    unfold collect_selected
    by_cases h0 : idx = 0
    · rw [if_pos h0]
    · rw [if_neg h0]
      have hrest : (0 : Int) ∈ rest := by
        rcases List.mem_cons.mp h with heq | hm
        · exact absurd heq.symm h0
        · exact hm
      by_cases hr : 1 ≤ idx ∧ idx ≤ (sorted_files.length : Int)
      · rw [if_pos hr]; exact ih _ hrest
      · rw [if_neg hr]; exact ih _ hrest

/-- C2: a comma-separated selection whose tokens all parse as integers and
which contains the index 0 anywhere makes the File Selector return the
empty list, regardless of the other indices present. -/
theorem comma_selection_with_zero_cancels (input_format : Str) (files : List Str)
    (choice : Str) (indices : List Int)
    (hcomma : choice.contains ',' = true)
    (hparse : parse_index_list choice = some indices)
    (hzero : (0 : Int) ∈ indices) :
    select_files_menu input_format files [choice] = some [] := by
  have hstep : select_files_step (sorted_strings files) choice = some [] := by
    unfold select_files_step
    by_cases hkw : lower choice ∈ select_cancel_keywords
    · rw [if_pos hkw]
    · rw [if_neg hkw, if_pos hcomma, hparse]
      exact collect_selected_of_zero _ indices [] hzero
  unfold select_files_menu select_files_loop
  rw [hstep]

theorem comma_selection_with_zero_cancels_witness :
    (S "2,0,1").contains ',' = true ∧
    parse_index_list (S "2,0,1") = some [2, 0, 1] ∧
    (0 : Int) ∈ ([2, 0, 1] : List Int) ∧
    select_files_menu (S "mp4") [S "a.mp4", S "b.mp4", S "c.mp4"] [S "2,0,1"] = some [] :=
  ⟨by decide, by decide, by decide,
    comma_selection_with_zero_cancels (S "mp4") [S "a.mp4", S "b.mp4", S "c.mp4"]
      (S "2,0,1") [2, 0, 1] (by decide) (by decide) (by decide)⟩

/-- C8: on a non-empty file list, the single input `-1` makes the File
Selector return the whole file list sorted in lexicographic (code-point)
order: the result is exactly the sorted list, which is sorted and a
permutation of the input. -/
theorem select_all_returns_sorted_files (input_format : Str) (files : List Str)
    (hne : files ≠ []) :
    select_files_menu input_format files [S "-1"] = some (sorted_strings files) ∧
    List.Sorted (· ≤ ·) (sorted_strings files) ∧ (sorted_strings files).Perm files := by
  refine ⟨?_, List.sorted_insertionSort _ _, List.perm_insertionSort _ _⟩
  have hstep : select_files_step (sorted_strings files) (S "-1") =
      some (sorted_strings files) := by
    unfold select_files_step
    rw [if_neg (by decide : ¬ lower (S "-1") ∈ select_cancel_keywords)]
    rw [if_neg (by decide : ¬ (S "-1").contains ',' = true)]
    rw [show parse_int (S "-1") = some (-1) from by decide]
    simp
  unfold select_files_menu select_files_loop
  rw [hstep]

theorem select_all_returns_sorted_files_witness :
    ([S "b.mp4", S "a.mp4"] : List Str) ≠ [] ∧
    (select_files_menu (S "mp4") [S "b.mp4", S "a.mp4"] [S "-1"] =
        some (sorted_strings [S "b.mp4", S "a.mp4"]) ∧
      List.Sorted (· ≤ ·) (sorted_strings [S "b.mp4", S "a.mp4"]) ∧
      (sorted_strings [S "b.mp4", S "a.mp4"]).Perm [S "b.mp4", S "a.mp4"]) :=
  ⟨by decide, select_all_returns_sorted_files (S "mp4") [S "b.mp4", S "a.mp4"] (by decide)⟩

/-- The boolean result of `convert_file` is exactly whether its environment
lets the conversion succeed; the printed lines do not influence it. -/
theorem convert_file_fst (input_path output_path : Str) (env : ConvertEnv) :
    (convert_file input_path output_path env).1 = env.succeeds := by
  obtain ⟨me, eng⟩ := env
  cases me <;> cases eng <;> rfl

/-- C4: whenever the engine reports a failure or directory creation or
invocation fails unexpectedly, the Conversion Invoker returns `false` (it
is a total function, so no exception reaches the caller), and the batch
loop facing such a file simply counts one more failure and moves on to the
remaining files. -/
theorem convert_file_failure_returns_false (input_path output_path : Str)
    (env : ConvertEnv) (h : env.succeeds = false) :
    (convert_file input_path output_path env).1 = false ∧
    ∀ (events : Nat → FileEvent) (output_dir output_format : Str)
      (rest : List Str) (i s f : Nat),
      events i = FileEvent.run env →
      convert_loop events output_dir output_format (input_path :: rest) i s f =
        convert_loop events output_dir output_format rest (i + 1) s (f + 1) := by
  refine ⟨by rw [convert_file_fst, h], ?_⟩
  intro events output_dir output_format rest i s f hev
  simp only [convert_loop]
  rw [hev]
  simp only [convert_file_fst, h, Bool.false_eq_true, if_false]

theorem convert_file_failure_returns_false_witness :
    (ConvertEnv.mk none (EngineOutcome.engineError (S "boom"))).succeeds = false ∧
    (convert_file (S "in.mp4") (S "out.mkv")
        ⟨none, EngineOutcome.engineError (S "boom")⟩).1 = false ∧
    convert_loop (fun _ => FileEvent.run ⟨none, EngineOutcome.engineError (S "boom")⟩)
        [] (S "mkv") [S "in.mp4", S "next.mp4"] 0 0 0 =
      convert_loop (fun _ => FileEvent.run ⟨none, EngineOutcome.engineError (S "boom")⟩)
        [] (S "mkv") [S "next.mp4"] 1 0 1 := by
  refine ⟨by decide, ?_, ?_⟩
  · exact (convert_file_failure_returns_false (S "in.mp4") (S "out.mkv") _ (by decide)).1
  · exact (convert_file_failure_returns_false (S "in.mp4") (S "out.mkv") _ (by decide)).2
      _ [] (S "mkv") [S "next.mp4"] 0 0 0 rfl

/-- When the batch is non-empty, no cancel keyword is given at the
output-directory prompt and the directory step succeeds (empty answer,
existing directory, or agreed and successful creation), `convert_files`
runs its conversion loop from zeroed counters. -/
theorem convert_files_runs_loop (input_files : List Str)
    (input_format output_format : Str) (benv : BatchEnv)
    (hne : input_files ≠ [])
    (hnokw : lower (strip benv.output_dir_input) ∉ batch_cancel_keywords)
    (hdir : strip benv.output_dir_input = [] ∨ benv.dir_exists = true ∨
      (lower benv.create_answer = S "y" ∧ benv.mkdir_fails = false)) :
    convert_files input_files input_format output_format benv =
      convert_loop benv.events (strip benv.output_dir_input) output_format
        input_files 0 0 0 := by
  have hemp : input_files.isEmpty = false := by
    cases input_files with
    | nil => exact absurd rfl hne
    | cons a l => rfl
  unfold convert_files
  rw [if_neg (by simp [hemp])]
  dsimp only
  rw [if_neg hnokw]
  by_cases hcond : strip benv.output_dir_input ≠ [] ∧ benv.dir_exists = false
  · rw [if_pos hcond]
    rcases hdir with h1 | h2 | ⟨hy, hmk⟩
    · exact absurd h1 hcond.1
    · rw [hcond.2] at h2
      exact Bool.noConfusion h2
    · rw [if_pos hy, if_neg (by simp [hmk])]
  · rw [if_neg hcond]

/-- The sum of the two counters at the end of an uninterrupted conversion
loop is the starting sum plus the number of files processed. -/
theorem convert_loop_sum (events : Nat → FileEvent) (od ofmt : Str) :
    ∀ (files : List Str) (start s f : Nat),
      (∀ j, j < files.length → events (start + j) ≠ FileEvent.interrupt) →
      (convert_loop events od ofmt files start s f).1 +
        (convert_loop events od ofmt files start s f).2 = s + f + files.length := by
  intro files
  induction files with
  | nil => intro start s f _; simp [convert_loop]
  | cons file rest ih =>
    intro start s f hno
    have h0 : events start ≠ FileEvent.interrupt := by
      have := hno 0 (by simp)
      simpa using this
    have hrest : ∀ j, j < rest.length → events (start + 1 + j) ≠ FileEvent.interrupt := by
      intro j hj
      have := hno (j + 1) (by simp; omega)
      rwa [show start + (j + 1) = start + 1 + j from by omega] at this
    unfold convert_loop
    cases hev : events start with
    | interrupt => exact absurd hev h0
    | run env =>
      dsimp only
      rw [convert_file_fst]
      cases hs : env.succeeds
      · rw [if_neg (by simp)]
        have := ih (start + 1) s (f + 1) hrest
        simp only [List.length_cons]
        omega
      · rw [if_pos rfl]
        have := ih (start + 1) (s + 1) f hrest
        simp only [List.length_cons]
        omega

/-- If the interrupt signal first fires at 0-based position `k` of the
remaining file window, the conversion loop returns the tally it has
accumulated over the `k` preceding files, added onto its counters. -/
theorem convert_loop_interrupted (events : Nat → FileEvent) (od ofmt : Str) :
    ∀ (files : List Str) (k start s f : Nat),
      k < files.length →
      (∀ j, j < k → events (start + j) ≠ FileEvent.interrupt) →
      events (start + k) = FileEvent.interrupt →
      convert_loop events od ofmt files start s f =
        (s + (tally_from events start k).1, f + (tally_from events start k).2) := by
  intro files
  induction files with
  | nil => intro k start s f hk _ _; simp at hk
  | cons file rest ih =>
    intro k start s f hk hbef hint
    cases k with
    | zero =>
      rw [Nat.add_zero] at hint
      unfold convert_loop
      rw [hint]
      simp [tally_from]
    | succ k =>
      have h0 : events start ≠ FileEvent.interrupt := by
        have := hbef 0 (Nat.succ_pos k)
        simpa using this
      have hbef2 : ∀ j, j < k → events (start + 1 + j) ≠ FileEvent.interrupt := by
        intro j hj
        have := hbef (j + 1) (by omega)
        rwa [show start + (j + 1) = start + 1 + j from by omega] at this
      have hint2 : events (start + 1 + k) = FileEvent.interrupt := by
        rwa [show start + 1 + k = start + (k + 1) from by omega]
      have hk2 : k < rest.length := by
        simp only [List.length_cons] at hk
        omega
      unfold convert_loop
      cases hev : events start with
      | interrupt => exact absurd hev h0
      | run env =>
        dsimp only
        rw [convert_file_fst]
        cases hs : env.succeeds
        · rw [if_neg (by simp)]
          rw [ih k (start + 1) s (f + 1) hk2 hbef2 hint2]
          simp [tally_from, hev, hs, Prod.mk.injEq]
          omega
        · rw [if_pos rfl]
          rw [ih k (start + 1) (s + 1) f hk2 hbef2 hint2]
          simp [tally_from, hev, hs, Prod.mk.injEq]
          omega

/-- C3: if the interrupt signal fires at the batch's `i`-th file (0-based)
after `i` files have been processed, the Batch Converter returns — it does
not raise — the tally accumulated over exactly those first `i` files. -/
theorem interrupt_returns_accumulated_tally (input_files : List Str)
    (input_format output_format : Str) (benv : BatchEnv) (i : Nat)
    (hnokw : lower (strip benv.output_dir_input) ∉ batch_cancel_keywords)
    (hdir : strip benv.output_dir_input = [] ∨ benv.dir_exists = true ∨
      (lower benv.create_answer = S "y" ∧ benv.mkdir_fails = false))
    (hi : i < input_files.length)
    (hint : benv.events i = FileEvent.interrupt)
    (hbefore : ∀ j, j < i → benv.events j ≠ FileEvent.interrupt) :
    convert_files input_files input_format output_format benv =
      tally_before benv.events i := by
  have hne : input_files ≠ [] := by
    intro h
    rw [h] at hi
    simp at hi
  rw [convert_files_runs_loop input_files input_format output_format benv hne hnokw hdir]
  rw [convert_loop_interrupted benv.events (strip benv.output_dir_input) output_format
      input_files i 0 0 0 hi
      (by intro j hj; rw [Nat.zero_add]; exact hbefore j hj)
      (by rw [Nat.zero_add]; exact hint)]
  unfold tally_before
  simp

theorem interrupt_returns_accumulated_tally_witness :
    lower (strip (S "")) ∉ batch_cancel_keywords ∧
    strip (S "") = ([] : Str) ∧
    1 < ([S "a.mp4", S "b.mp4"] : List Str).length ∧
    (fun n => if n = 0 then FileEvent.run ⟨none, EngineOutcome.ok⟩
      else FileEvent.interrupt) 1 = FileEvent.interrupt ∧
    (∀ j, j < 1 → (fun n => if n = 0 then FileEvent.run ⟨none, EngineOutcome.ok⟩
      else FileEvent.interrupt) j ≠ FileEvent.interrupt) ∧
    convert_files [S "a.mp4", S "b.mp4"] (S "mp4") (S "mkv")
        ⟨S "", S "", true, false,
          fun n => if n = 0 then FileEvent.run ⟨none, EngineOutcome.ok⟩
            else FileEvent.interrupt⟩ =
      tally_before (fun n => if n = 0 then FileEvent.run ⟨none, EngineOutcome.ok⟩
        else FileEvent.interrupt) 1 := by
  refine ⟨by decide, by decide, by decide, by decide, by decide, ?_⟩
  exact interrupt_returns_accumulated_tally [S "a.mp4", S "b.mp4"] (S "mp4") (S "mkv")
    ⟨S "", S "", true, false,
      fun n => if n = 0 then FileEvent.run ⟨none, EngineOutcome.ok⟩
        else FileEvent.interrupt⟩ 1
    (by decide) (Or.inl (by decide)) (by decide) (by decide) (by decide)

/-- C7: for a non-empty batch, a cancel keyword at the output-directory
prompt, or a named non-existent directory whose creation is declined or
fails, makes the Batch Converter return the tally `(0, 0)` without
attempting any conversion. -/
theorem output_dir_cancel_returns_zero_tally (input_files : List Str)
    (input_format output_format : Str) (benv : BatchEnv)
    (hne : input_files ≠ [])
    (habort : lower (strip benv.output_dir_input) ∈ batch_cancel_keywords ∨
      (strip benv.output_dir_input ≠ [] ∧ benv.dir_exists = false ∧
        (lower benv.create_answer ≠ S "y" ∨ benv.mkdir_fails = true))) :
    convert_files input_files input_format output_format benv = (0, 0) := by
  have hemp : input_files.isEmpty = false := by
    cases input_files with
    | nil => exact absurd rfl hne
    | cons a l => rfl
  unfold convert_files
  rw [if_neg (by simp [hemp])]
  dsimp only
  rcases habort with hkw | ⟨hod, hdx, hrest⟩
  · rw [if_pos hkw]
  · by_cases hkw : lower (strip benv.output_dir_input) ∈ batch_cancel_keywords
    · rw [if_pos hkw]
    · rw [if_neg hkw, if_pos ⟨hod, hdx⟩]
      rcases hrest with hy | hmk
      · rw [if_neg hy]
      · by_cases hy : lower benv.create_answer = S "y"
        · rw [if_pos hy, if_pos hmk]
        · rw [if_neg hy]

theorem output_dir_cancel_returns_zero_tally_witness :
    ([S "a.mp4"] : List Str) ≠ [] ∧
    lower (strip (S " cancel ")) ∈ batch_cancel_keywords ∧
    convert_files [S "a.mp4"] (S "mp4") (S "mkv")
        ⟨S " cancel ", S "", true, false, fun _ => FileEvent.run ⟨none, EngineOutcome.ok⟩⟩ =
      (0, 0) := by
  refine ⟨by decide, by decide, ?_⟩
  exact output_dir_cancel_returns_zero_tally [S "a.mp4"] (S "mp4") (S "mkv")
    ⟨S " cancel ", S "", true, false, fun _ => FileEvent.run ⟨none, EngineOutcome.ok⟩⟩
    (by decide) (Or.inl (by decide))

/-- C9: in a batch whose output-directory step succeeds and which no
interrupt reaches, the two counters of the returned tally sum to the
number of selected input files: each file lands in exactly one counter. -/
theorem tally_sum_equals_file_count (input_files : List Str)
    (input_format output_format : Str) (benv : BatchEnv)
    (hnokw : lower (strip benv.output_dir_input) ∉ batch_cancel_keywords)
    (hdir : strip benv.output_dir_input = [] ∨ benv.dir_exists = true ∨
      (lower benv.create_answer = S "y" ∧ benv.mkdir_fails = false))
    (hnoint : ∀ j, j < input_files.length → benv.events j ≠ FileEvent.interrupt) :
    (convert_files input_files input_format output_format benv).1 +
      (convert_files input_files input_format output_format benv).2 =
      input_files.length := by
  cases input_files with
  | nil => rfl
  | cons a l =>
    rw [convert_files_runs_loop (a :: l) input_format output_format benv
      (by simp) hnokw hdir]
    have := convert_loop_sum benv.events (strip benv.output_dir_input) output_format
      (a :: l) 0 0 0 (by intro j hj; rw [Nat.zero_add]; exact hnoint j hj)
    omega

theorem tally_sum_equals_file_count_witness :
    lower (strip (S "")) ∉ batch_cancel_keywords ∧
    strip (S "") = ([] : Str) ∧
    (∀ j, j < ([S "a.mp4", S "b.mp4"] : List Str).length →
      (fun n => FileEvent.run ⟨none,
        if n = 0 then EngineOutcome.ok else EngineOutcome.engineError (S "bad")⟩) j ≠
        FileEvent.interrupt) ∧
    (convert_files [S "a.mp4", S "b.mp4"] (S "mp4") (S "mkv")
        ⟨S "", S "", true, false,
          fun n => FileEvent.run ⟨none,
            if n = 0 then EngineOutcome.ok else EngineOutcome.engineError (S "bad")⟩⟩).1 +
      (convert_files [S "a.mp4", S "b.mp4"] (S "mp4") (S "mkv")
        ⟨S "", S "", true, false,
          fun n => FileEvent.run ⟨none,
            if n = 0 then EngineOutcome.ok else EngineOutcome.engineError (S "bad")⟩⟩).2 =
      ([S "a.mp4", S "b.mp4"] : List Str).length := by
  refine ⟨by decide, by decide, by decide, ?_⟩
  exact tally_sum_equals_file_count [S "a.mp4", S "b.mp4"] (S "mp4") (S "mkv")
    ⟨S "", S "", true, false,
      fun n => FileEvent.run ⟨none,
        if n = 0 then EngineOutcome.ok else EngineOutcome.engineError (S "bad")⟩⟩
    (by decide) (Or.inl (by decide)) (by decide)
